import Mathlib

/-!
Shallow embedding of the accounting core of the CareWave ERP repository
(`app/routers/accounting.py`, `app/models/accounting.py`).

Modelling conventions:
* Fixed-point decimal amounts (`Numeric(14,2)`, Python `Decimal`) are modelled
  as `ℚ`: addition, subtraction and comparison on `Decimal` are exact, and the
  divisions performed by the code (burn rate, runway) are exact at the
  precision the claims discuss.
* The SQLAlchemy tables `accounts`, `journal_entries`, `journal_lines` are
  modelled as lists of records inside a `Store`, with the autoincrement
  primary keys made explicit (`nextAccountId`, `nextEntryId`, `nextLineId`).
  `db.flush()` assigning the entry id before the lines are attached becomes
  the explicit use of `nextEntryId` when building the lines.
* The HTTP handlers always answer with a redirect; the distinct early-return
  paths (before any `db.commit()`) are modelled as distinct error values,
  and a path that commits returns the updated store.  An early return leaves
  the store untouched, exactly as the handler leaves the database untouched.
* `date.fromisoformat(date_str)` and `Decimal(amount.replace(",", "."))` are
  parsing of textual input; a handler argument of type `Option Date` /
  `Option ℚ` carries the parse result (`none` = unparseable input), and
  `date.today()` is passed in as the explicit argument `today`.
* `JournalEntry.date` is `nullable=False` with a default, so the model makes
  the date field total; the source's defensive `if entry.date:` guard is
  vacuous under that schema and disappears.  `line.debit or 0` maps a NULL
  amount to 0; amounts are total in the model, on which the guard is the
  identity.
-/

/-- A calendar date; Python `datetime.date` compares lexicographically by
(year, month, day). -/
structure Date where
  year : Int
  month : Int
  day : Int
deriving Repr, DecidableEq

/-- Row of the `accounts` table (`class Account`). -/
structure Account where
  id : Nat
  code : String
  name : String
  type : String
  country_scheme : String
  is_cash : Bool
  is_equity : Bool
deriving Repr, DecidableEq

/-- Row of the `journal_entries` table (`class JournalEntry`); the fields the
accounting handlers use. -/
structure JournalEntry where
  id : Nat
  date : Date
  description : String
  created_by : String
deriving Repr, DecidableEq

/-- Row of the `journal_lines` table (`class JournalLine`). -/
structure JournalLine where
  id : Nat
  entry_id : Nat
  account_id : Nat
  debit : ℚ
  credit : ℚ
deriving Repr, DecidableEq

/-- The transactional store: the three ledger tables plus the autoincrement
counters of their integer primary keys. -/
structure Store where
  accounts : List Account
  entries : List JournalEntry
  lines : List JournalLine
  nextAccountId : Nat
  nextEntryId : Nat
  nextLineId : Nat
deriving Repr, DecidableEq

def Store.empty : Store :=
  { accounts := [], entries := [], lines := [], nextAccountId := 1, nextEntryId := 1, nextLineId := 1 }

/-- Python `str.strip()`: drop leading and trailing whitespace.  Defined over
the character list so that concrete instances evaluate inside proofs. -/
def pyStrip (s : String) : String :=
  ⟨((s.data.dropWhile Char.isWhitespace).reverse.dropWhile Char.isWhitespace).reverse⟩

/-- `db.query(Account).get(account_id)` / the `line.account` relationship. -/
def findAccount (s : Store) (account_id : Nat) : Option Account :=
  s.accounts.find? (fun a => a.id == account_id)

/-- `db.query(JournalEntry).get(entry_id)` / the `line.entry` relationship. -/
def findEntry (s : Store) (entry_id : Nat) : Option JournalEntry :=
  s.entries.find? (fun e => e.id == entry_id)

/-- Early-return paths of the `POST /accounting/accounts/create` handler. -/
inductive CreateAccountError
  | blankCodeOrName
  | duplicateCode
deriving Repr, DecidableEq

/-- `create_account` (`app/routers/accounting.py`): strips code and name,
rejects blank code or name, rejects a duplicate code, otherwise inserts the
account.  The handler performs no check at all on `type`. -/
def create_account (s : Store) (code name ty scheme : String)
    (is_cash is_equity : Bool) : Except CreateAccountError Store :=
  let code := pyStrip code
  let name := pyStrip name
  if code = "" ∨ name = "" then
    .error .blankCodeOrName
  else if (s.accounts.find? (fun a => a.code == code)).isSome then
    .error .duplicateCode
  else
    let acc : Account :=
      { id := s.nextAccountId, code := code, name := name, type := ty,
        country_scheme := scheme, is_cash := is_cash, is_equity := is_equity }
    .ok { s with accounts := s.accounts ++ [acc], nextAccountId := s.nextAccountId + 1 }

/-- Early-return paths of the `POST /accounting/accounts/{id}/delete` handler. -/
inductive DeleteAccountError
  | notFound
  | accountInUse
deriving Repr, DecidableEq

/-- `delete_account`: missing id returns early; an account with at least one
referencing journal line returns early; otherwise the account is deleted. -/
def delete_account (s : Store) (account_id : Nat) : Except DeleteAccountError Store :=
  match findAccount s account_id with
  | none => .error .notFound
  | some acc =>
    if (s.lines.find? (fun l => l.account_id == acc.id)).isSome then
      .error .accountInUse
    else
      .ok { s with accounts := s.accounts.filter (fun a => a.id != acc.id) }

/-- Early-return paths of the `POST /accounting/journal/create` handler. -/
inductive PostEntryError
  | amountParseError
  | invalidAmounts
deriving Repr, DecidableEq

/-- `create_journal_entry`: an unparseable date falls back to `today`; a blank
description falls back to `"Asiento manual"`; unparseable amounts return
early; `debit <= 0 or credit <= 0 or debit != credit` returns early;
otherwise one entry and its two lines (a debit line and a credit line) are
persisted together. -/
def create_journal_entry (s : Store) (dateOpt : Option Date) (description : String)
    (debit_account_id : Nat) (debitOpt : Option ℚ)
    (credit_account_id : Nat) (creditOpt : Option ℚ)
    (today : Date) (current_user : String) :
    Except PostEntryError (Store × JournalEntry) :=
  let d := dateOpt.getD today
  let descrStripped := pyStrip description
  let descr := if descrStripped = "" then "Asiento manual" else descrStripped
  match debitOpt, creditOpt with
  | some debit, some credit =>
    if debit ≤ 0 ∨ credit ≤ 0 ∨ debit ≠ credit then
      .error .invalidAmounts
    else
      let entry : JournalEntry :=
        { id := s.nextEntryId, date := d, description := descr, created_by := current_user }
      let line_debit : JournalLine :=
        { id := s.nextLineId, entry_id := entry.id, account_id := debit_account_id,
          debit := debit, credit := 0 }
      let line_credit : JournalLine :=
        { id := s.nextLineId + 1, entry_id := entry.id, account_id := credit_account_id,
          debit := 0, credit := credit }
      .ok ({ s with entries := s.entries ++ [entry],
                    lines := s.lines ++ [line_debit, line_credit],
                    nextEntryId := s.nextEntryId + 1,
                    nextLineId := s.nextLineId + 2 }, entry)
  | _, _ => .error .amountParseError

/-!
Statement engine: the pure derivations the `GET /accounting/ui` handler
(`accounting_ui`) recomputes from the stored rows on every call.
-/

/-- One row of the `ledger_lines` list built for the selected account. -/
structure LedgerRow where
  date : Date
  description : String
  debit : ℚ
  credit : ℚ
  balance : ℚ
deriving Repr, DecidableEq

/-- Strict lexicographic order on dates, as Python compares `datetime.date`. -/
def dateLt (a b : Date) : Prop :=
  a.year < b.year ∨ (a.year = b.year ∧ (a.month < b.month ∨ (a.month = b.month ∧ a.day < b.day)))

instance : DecidableRel dateLt := fun a b => by unfold dateLt; infer_instance

/-- The `ORDER BY JournalEntry.date, JournalEntry.id` sort key of the ledger
query, on a line joined with its entry. -/
def entryKeyLe (p q : JournalLine × JournalEntry) : Prop :=
  dateLt p.2.date q.2.date ∨ (p.2.date = q.2.date ∧ p.2.id ≤ q.2.id)

instance : DecidableRel entryKeyLe := fun p q => by unfold entryKeyLe; infer_instance

/-- The ledger query: `JournalLine JOIN JournalEntry` filtered to the selected
account (the inner join keeps the lines whose `entry_id` resolves). -/
def accountJoinedLines (s : Store) (account_id : Nat) : List (JournalLine × JournalEntry) :=
  s.lines.filterMap (fun l =>
    if l.account_id == account_id then (findEntry s l.entry_id).map (fun e => (l, e)) else none)

/-- The joined ledger lines sorted by `(entry.date, entry.id)`; insertion sort
is stable, matching the row order the database query returns. -/
def sortedAccountLines (s : Store) (account_id : Nat) : List (JournalLine × JournalEntry) :=
  List.insertionSort entryKeyLe (accountJoinedLines s account_id)

/-- The running-balance loop of `accounting_ui`: `ledger_balance += debit - credit`
then a row carrying the updated balance is appended. -/
def ledgerRows : List (JournalLine × JournalEntry) → ℚ → List LedgerRow
  | [], _ => []
  | (l, e) :: rest, bal =>
    let debit := l.debit
    let credit := l.credit
    let bal' := bal + (debit - credit)
    { date := e.date, description := e.description, debit := debit, credit := credit,
      balance := bal' } :: ledgerRows rest bal'

/-- `ledger_lines` for an account: the sorted joined lines with the running
balance started at `Decimal("0.00")`. -/
def ledger_lines (s : Store) (account_id : Nat) : List LedgerRow :=
  ledgerRows (sortedAccountLines s account_id) 0

/-- A journal line joined with its account and its entry, as the statement
loop of `accounting_ui` reads `line.account` and `line.entry`. -/
def resolvedLines (s : Store) : List (JournalLine × Account × JournalEntry) :=
  s.lines.filterMap (fun l =>
    match findAccount s l.account_id, findEntry s l.entry_id with
    | some a, some e => some (l, a, e)
    | _, _ => none)

/-- `monthly_expenses[key] += v` on the `defaultdict(Decimal)`: update the
existing key or append it with the fresh default. -/
def bumpMonth (m : List ((Int × Int) × ℚ)) (key : Int × Int) (v : ℚ) :
    List ((Int × Int) × ℚ) :=
  match m with
  | [] => [(key, v)]
  | (k, x) :: rest => if k = key then (k, x + v) :: rest else (k, x) :: bumpMonth rest key v

/-- The accumulators of the single pass over `db.query(JournalLine).all()` in
`accounting_ui`. -/
structure Financials where
  total_income : ℚ
  total_expense : ℚ
  assets_total : ℚ
  liabilities_total : ℚ
  equity_total : ℚ
  cash_balance : ℚ
  monthly_expenses : List ((Int × Int) × ℚ)
deriving Repr, DecidableEq

def initFinancials : Financials :=
  { total_income := 0, total_expense := 0, assets_total := 0, liabilities_total := 0,
    equity_total := 0, cash_balance := 0, monthly_expenses := [] }

/-- The body of the statement loop: the income/expense chain, then the
asset/liability/equity chain.  The equity branch is an `elif`: a line of an
asset-typed or liability-typed account never reaches it, whatever `is_equity`
says. -/
def financialsStep (fin : Financials) (r : JournalLine × Account × JournalEntry) : Financials :=
  let l := r.1
  let acc := r.2.1
  let entry := r.2.2
  let debit := l.debit
  let credit := l.credit
  let fin :=
    if acc.type = "income" then
      { fin with total_income := fin.total_income + (credit - debit) }
    else if acc.type = "expense" then
      { fin with total_expense := fin.total_expense + (debit - credit),
                 monthly_expenses :=
                   bumpMonth fin.monthly_expenses (entry.date.year, entry.date.month)
                     (debit - credit) }
    else fin
  if acc.type = "asset" then
    let balance := debit - credit
    { fin with assets_total := fin.assets_total + balance,
               cash_balance := if acc.is_cash then fin.cash_balance + balance else fin.cash_balance }
  else if acc.type = "liability" then
    { fin with liabilities_total := fin.liabilities_total + (credit - debit) }
  else if acc.type = "equity" ∨ acc.is_equity then
    { fin with equity_total := fin.equity_total + (credit - debit) }
  else fin

/-- The completed statement pass of `accounting_ui`. -/
def financials (s : Store) : Financials :=
  (resolvedLines s).foldl financialsStep initFinancials

/-- Lexicographic order on `(year, month)` keys, as Python sorts tuples. -/
def monthKeyLe (a b : Int × Int) : Prop :=
  a.1 < b.1 ∨ (a.1 = b.1 ∧ a.2 ≤ b.2)

instance : DecidableRel monthKeyLe := fun a b => by unfold monthKeyLe; infer_instance

/-- `sorted(monthly_expenses.keys())`. -/
def sortedMonthKeys (fin : Financials) : List (Int × Int) :=
  List.insertionSort monthKeyLe (fin.monthly_expenses.map Prod.fst)

/-- `monthly_expenses[k]` for a key already in the dict. -/
def lookupMonth (m : List ((Int × Int) × ℚ)) (k : Int × Int) : ℚ :=
  ((m.find? (fun p => decide (p.1 = k))).map Prod.snd).getD 0

/-- `sorted_keys[-3:]`: the last up-to-3 keys in sorted order. -/
def lastMonthKeys (fin : Financials) : List (Int × Int) :=
  (sortedMonthKeys fin).drop ((sortedMonthKeys fin).length - 3)

/-- The burn-rate computation of `accounting_ui`: 0 unless some expense month
is populated, else the mean of the most recent up-to-3 monthly totals. -/
def burn_rate (s : Store) : ℚ :=
  let fin := financials s
  if fin.monthly_expenses = [] then 0
  else
    let last_keys := lastMonthKeys fin
    let total_recent := (last_keys.map (lookupMonth fin.monthly_expenses)).sum
    let months := last_keys.length
    if months > 0 then total_recent / (months : ℚ) else 0

/-- `runway_months`: stays `None` unless some expense month is populated and
the burn rate is positive. -/
def runway_months (s : Store) : Option ℚ :=
  let fin := financials s
  if fin.monthly_expenses = [] then none
  else if burn_rate s > 0 then some (fin.cash_balance / burn_rate s) else none

/-- One row of the per-account balance table (`balance_rows`). -/
structure BalanceRow where
  account : Account
  debit_total : ℚ
  credit_total : ℚ
  saldo : ℚ
deriving Repr, DecidableEq

/-- `ORDER BY Account.code` on the accounts listing. -/
def accountCodeLe (a b : Account) : Prop := a.code ≤ b.code

instance : DecidableRel accountCodeLe := fun a b => by unfold accountCodeLe; infer_instance

def accountsByCode (s : Store) : List Account :=
  List.insertionSort accountCodeLe s.accounts

/-- Total of `line.debit` over the lines of one account. -/
def accountDebitTotal (s : Store) (acc : Account) : ℚ :=
  ((s.lines.filter (fun l => l.account_id == acc.id)).map (fun l => l.debit)).sum

/-- Total of `line.credit` over the lines of one account. -/
def accountCreditTotal (s : Store) (acc : Account) : ℚ :=
  ((s.lines.filter (fun l => l.account_id == acc.id)).map (fun l => l.credit)).sum

/-- `balance_rows` of `accounting_ui`: for each account, the debit and credit
totals of its lines; the row is kept only when one of the two totals is
nonzero. -/
def balance_rows (s : Store) : List BalanceRow :=
  (accountsByCode s).filterMap (fun acc =>
    let debit_total := accountDebitTotal s acc
    let credit_total := accountCreditTotal s acc
    let saldo := debit_total - credit_total
    if debit_total ≠ 0 ∨ credit_total ≠ 0 then
      some { account := acc, debit_total := debit_total, credit_total := credit_total,
             saldo := saldo }
    else none)

/-!
Order facts for the sort relations used by the queries.
-/

theorem dateLt_or_eq_or_gt (a b : Date) : dateLt a b ∨ a = b ∨ dateLt b a := by
  obtain ⟨ay, am, ad⟩ := a
  obtain ⟨cy, cm, cd⟩ := b
  simp only [dateLt, Date.mk.injEq]
  omega

theorem dateLt_trans {a b c : Date} (h1 : dateLt a b) (h2 : dateLt b c) : dateLt a c := by
  obtain ⟨ay, am, ad⟩ := a
  obtain ⟨cy, cm, cd⟩ := b
  obtain ⟨ey, em, ed⟩ := c
  simp only [dateLt] at h1 h2 ⊢
  omega

instance : IsTotal (JournalLine × JournalEntry) entryKeyLe := by
  constructor
  intro p q
  rcases dateLt_or_eq_or_gt p.2.date q.2.date with h | h | h
  · exact Or.inl (Or.inl h)
  · rcases Nat.le_total p.2.id q.2.id with h2 | h2
    · exact Or.inl (Or.inr ⟨h, h2⟩)
    · exact Or.inr (Or.inr ⟨h.symm, h2⟩)
  · exact Or.inr (Or.inl h)

instance : IsTrans (JournalLine × JournalEntry) entryKeyLe := by
  constructor
  intro p q r hpq hqr
  rcases hpq with h1 | ⟨e1, i1⟩
  · rcases hqr with h2 | ⟨e2, i2⟩
    · exact Or.inl (dateLt_trans h1 h2)
    · exact Or.inl (by rw [← e2]; exact h1)
  · rcases hqr with h2 | ⟨e2, i2⟩
    · exact Or.inl (by rw [e1]; exact h2)
    · exact Or.inr ⟨e1.trans e2, Nat.le_trans i1 i2⟩

instance : IsTotal (Int × Int) monthKeyLe := by
  constructor
  intro a b
  simp only [monthKeyLe]
  omega

instance : IsTrans (Int × Int) monthKeyLe := by
  constructor
  intro a b c h1 h2
  simp only [monthKeyLe] at h1 h2 ⊢
  omega

instance : IsTotal Account accountCodeLe :=
  ⟨fun a b => le_total a.code b.code⟩

instance : IsTrans Account accountCodeLe :=
  ⟨fun _ _ _ h1 h2 => le_trans h1 h2⟩

/-!
General facts about the running-balance loop.
-/

theorem ledgerRows_length (xs : List (JournalLine × JournalEntry)) (b : ℚ) :
    (ledgerRows xs b).length = xs.length := by
  induction xs generalizing b with
  | nil => rfl
  | cons x rest ih => obtain ⟨l, e⟩ := x; simp [ledgerRows, ih]

theorem ledgerRows_fields (xs : List (JournalLine × JournalEntry)) (b : ℚ) :
    (ledgerRows xs b).map (fun r => (r.date, r.description, r.debit, r.credit))
      = xs.map (fun p => (p.2.date, p.2.description, p.1.debit, p.1.credit)) := by
  induction xs generalizing b with
  | nil => rfl
  | cons x rest ih => obtain ⟨l, e⟩ := x; simp [ledgerRows, ih]

theorem ledgerRows_balance_head (xs : List (JournalLine × JournalEntry)) (b : ℚ)
    (h : 0 < (ledgerRows xs b).length) :
    (ledgerRows xs b)[0].balance = b + ((ledgerRows xs b)[0].debit - (ledgerRows xs b)[0].credit) := by
  cases xs with
  | nil => simp [ledgerRows] at h
  | cons x rest => obtain ⟨l, e⟩ := x; simp [ledgerRows]

theorem ledgerRows_balance_step (xs : List (JournalLine × JournalEntry)) (b : ℚ) (i : Nat)
    (h : i + 1 < (ledgerRows xs b).length) :
    (ledgerRows xs b)[i + 1].balance =
      (ledgerRows xs b)[i].balance +
        ((ledgerRows xs b)[i + 1].debit - (ledgerRows xs b)[i + 1].credit) := by
  induction xs generalizing b i with
  | nil => simp [ledgerRows] at h
  | cons x rest ih =>
    obtain ⟨l, e⟩ := x
    have hlen : (ledgerRows (⟨l, e⟩ :: rest) b).length = rest.length + 1 := by
      simp [ledgerRows, ledgerRows_length]
    cases i with
    | zero =>
      have hrest : 0 < (ledgerRows rest (b + (l.debit - l.credit))).length := by
        rw [ledgerRows_length]; rw [hlen] at h; omega
      have h0 := ledgerRows_balance_head rest (b + (l.debit - l.credit)) hrest
      simp only [ledgerRows, List.getElem_cons_succ, List.getElem_cons_zero]
      rw [h0]
    | succ j =>
      have hj : j + 1 < (ledgerRows rest (b + (l.debit - l.credit))).length := by
        rw [ledgerRows_length]; rw [hlen] at h; omega
      have := ih (b + (l.debit - l.credit)) j hj
      simp only [ledgerRows, List.getElem_cons_succ]
      exact this

/-!
The ledger query joins each line of the selected account with its entry.
-/

theorem joined_fst_eq_filter (s : Store) (aid : Nat) (ls : List JournalLine)
    (h : ∀ l ∈ ls, l.account_id = aid → (findEntry s l.entry_id).isSome) :
    (ls.filterMap (fun l =>
        if l.account_id == aid then (findEntry s l.entry_id).map (fun e => (l, e)) else none)).map
        Prod.fst
      = ls.filter (fun l => l.account_id == aid) := by
  induction ls with
  | nil => rfl
  | cons l rest ih =>
    have ih' := ih (fun x hx hx2 => h x (by simp [hx]) hx2)
    by_cases hacc : l.account_id = aid
    · have hsome := h l (by simp) hacc
      obtain ⟨e, he⟩ := Option.isSome_iff_exists.mp hsome
      simp only [List.filterMap_cons, List.filter_cons, hacc, beq_self_eq_true, if_true, he,
        Option.map_some', List.map_cons]
      rw [ih']
    · have hbeq : (l.account_id == aid) = false := by simp [hacc]
      simp only [List.filterMap_cons, List.filter_cons, hbeq, Bool.false_eq_true, if_false]
      exact ih'

theorem accountJoinedLines_fst (s : Store) (aid : Nat)
    (h : ∀ l ∈ s.lines, l.account_id = aid → (findEntry s l.entry_id).isSome) :
    (accountJoinedLines s aid).map Prod.fst = s.lines.filter (fun l => l.account_id == aid) :=
  joined_fst_eq_filter s aid s.lines h

theorem mem_accountJoinedLines {s : Store} {aid : Nat} {p : JournalLine × JournalEntry}
    (hp : p ∈ accountJoinedLines s aid) :
    p.1 ∈ s.lines ∧ p.1.account_id = aid ∧ findEntry s p.1.entry_id = some p.2 := by
  unfold accountJoinedLines at hp
  obtain ⟨l, hl, hif⟩ := List.mem_filterMap.mp hp
  by_cases hacc : l.account_id = aid
  · simp only [hacc, beq_self_eq_true, if_true, Option.map_eq_some'] at hif
    obtain ⟨e, he, hpe⟩ := hif
    subst hpe
    exact ⟨hl, hacc, he⟩
  · simp [hacc] at hif

/-!
Characterizing the single statement pass: each accumulator is a sum of
per-line contributions.
-/

/-- The contribution of one resolved line to `equity_total`: the equity branch
of the balance-sheet chain is only reached when the account's type is neither
"asset" nor "liability". -/
def equityContrib (r : JournalLine × Account × JournalEntry) : ℚ :=
  if r.2.1.type ≠ "asset" ∧ r.2.1.type ≠ "liability" ∧ (r.2.1.type = "equity" ∨ r.2.1.is_equity) then
    r.1.credit - r.1.debit
  else 0

theorem financialsStep_equity (fin : Financials) (r : JournalLine × Account × JournalEntry) :
    (financialsStep fin r).equity_total = fin.equity_total + equityContrib r := by
  obtain ⟨l, acc, e⟩ := r
  simp only [financialsStep, equityContrib]
  split_ifs <;> simp_all

theorem foldl_equity (ls : List (JournalLine × Account × JournalEntry)) (fin : Financials) :
    (ls.foldl financialsStep fin).equity_total = fin.equity_total + (ls.map equityContrib).sum := by
  induction ls generalizing fin with
  | nil => simp
  | cons r rest ih =>
    simp only [List.foldl_cons, List.map_cons, List.sum_cons]
    rw [ih, financialsStep_equity]
    ring

/-- The contribution of one resolved line to the expense-by-month dict. -/
def monthContrib (k : Int × Int) (r : JournalLine × Account × JournalEntry) : ℚ :=
  if r.2.1.type = "expense" ∧ (r.2.2.date.year, r.2.2.date.month) = k then
    r.1.debit - r.1.credit
  else 0

theorem financialsStep_monthly (fin : Financials) (r : JournalLine × Account × JournalEntry) :
    (financialsStep fin r).monthly_expenses =
      if r.2.1.type = "expense" then
        bumpMonth fin.monthly_expenses (r.2.2.date.year, r.2.2.date.month) (r.1.debit - r.1.credit)
      else fin.monthly_expenses := by
  obtain ⟨l, acc, e⟩ := r
  simp only [financialsStep]
  split_ifs <;> simp_all

theorem lookupMonth_bumpMonth (m : List ((Int × Int) × ℚ)) (k k' : Int × Int) (v : ℚ) :
    lookupMonth (bumpMonth m k v) k' = lookupMonth m k' + (if k = k' then v else 0) := by
  induction m with
  | nil =>
    by_cases h : k = k'
    · subst h; simp [bumpMonth, lookupMonth]
    · simp [bumpMonth, lookupMonth, h]
  | cons p rest ih =>
    obtain ⟨k0, x⟩ := p
    by_cases h0 : k0 = k
    · subst h0
      by_cases h1 : k0 = k'
      · subst h1; simp [bumpMonth, lookupMonth, List.find?_cons]
      · simp [bumpMonth, lookupMonth, List.find?_cons, h1]
    · have hk : k ≠ k0 := fun hh => h0 hh.symm
      by_cases h1 : k0 = k'
      · subst h1
        simp [bumpMonth, lookupMonth, List.find?_cons, h0, hk]
      · simp only [bumpMonth, if_neg h0]
        simp only [lookupMonth, List.find?_cons] at ih ⊢
        simp [h1, ih]

theorem mem_keys_bumpMonth (m : List ((Int × Int) × ℚ)) (k k' : Int × Int) (v : ℚ) :
    k' ∈ (bumpMonth m k v).map Prod.fst ↔ k' ∈ m.map Prod.fst ∨ k' = k := by
  induction m with
  | nil => simp [bumpMonth]
  | cons p rest ih =>
    obtain ⟨k0, x⟩ := p
    by_cases h0 : k0 = k
    · subst h0; simp [bumpMonth]
      intro h; exact Or.inl h
    · simp only [bumpMonth, if_neg h0, List.map_cons, List.mem_cons, ih]
      tauto

/-- Net expense amount of one month over the stored lines, grouped by
`(entry.date.year, entry.date.month)`. -/
def monthlyExpenseTotal (s : Store) (k : Int × Int) : ℚ :=
  ((resolvedLines s).map (monthContrib k)).sum

theorem foldl_lookupMonth (ls : List (JournalLine × Account × JournalEntry)) (fin : Financials)
    (k : Int × Int) :
    lookupMonth ((ls.foldl financialsStep fin).monthly_expenses) k =
      lookupMonth fin.monthly_expenses k + (ls.map (monthContrib k)).sum := by
  induction ls generalizing fin with
  | nil => simp
  | cons r rest ih =>
    simp only [List.foldl_cons, List.map_cons, List.sum_cons]
    rw [ih]
    have hm := financialsStep_monthly fin r
    by_cases hexp : r.2.1.type = "expense"
    · rw [hm, if_pos hexp]
      rw [lookupMonth_bumpMonth]
      simp only [monthContrib, hexp, true_and]
      by_cases hk : (r.2.2.date.year, r.2.2.date.month) = k
      · simp [hk]; ring
      · simp [hk]
    · rw [hm, if_neg hexp]
      simp [monthContrib, hexp]

theorem foldl_mem_keys (ls : List (JournalLine × Account × JournalEntry)) (fin : Financials)
    (k : Int × Int) :
    k ∈ ((ls.foldl financialsStep fin).monthly_expenses).map Prod.fst ↔
      k ∈ fin.monthly_expenses.map Prod.fst ∨
        ∃ r ∈ ls, r.2.1.type = "expense" ∧ (r.2.2.date.year, r.2.2.date.month) = k := by
  induction ls generalizing fin with
  | nil => simp
  | cons r rest ih =>
    simp only [List.foldl_cons, List.mem_cons]
    rw [ih]
    have hm := financialsStep_monthly fin r
    by_cases hexp : r.2.1.type = "expense"
    · rw [hm, if_pos hexp, mem_keys_bumpMonth]
      constructor
      · rintro (⟨h | h⟩ | ⟨x, hx, h1, h2⟩)
        · exact Or.inl h
        · exact Or.inr ⟨r, Or.inl rfl, hexp, h.symm⟩
        · exact Or.inr ⟨x, Or.inr hx, h1, h2⟩
      · rintro (h | ⟨x, hx | hx, h1, h2⟩)
        · exact Or.inl (Or.inl h)
        · subst hx; exact Or.inl (Or.inr h2.symm)
        · exact Or.inr ⟨x, hx, h1, h2⟩
    · rw [hm, if_neg hexp]
      constructor
      · rintro (h | ⟨x, hx, h1, h2⟩)
        · exact Or.inl h
        · exact Or.inr ⟨x, Or.inr hx, h1, h2⟩
      · rintro (h | ⟨x, hx | hx, h1, h2⟩)
        · exact Or.inl h
        · subst hx; exact absurd h1 hexp
        · exact Or.inr ⟨x, hx, h1, h2⟩

theorem lookupMonth_financials (s : Store) (k : Int × Int) :
    lookupMonth (financials s).monthly_expenses k = monthlyExpenseTotal s k := by
  unfold financials monthlyExpenseTotal
  rw [foldl_lookupMonth]
  simp [initFinancials, lookupMonth]

theorem mem_keys_financials (s : Store) (k : Int × Int) :
    k ∈ (financials s).monthly_expenses.map Prod.fst ↔
      ∃ r ∈ resolvedLines s, r.2.1.type = "expense" ∧ (r.2.2.date.year, r.2.2.date.month) = k := by
  unfold financials
  rw [foldl_mem_keys]
  simp [initFinancials]

/-!
Concrete fixtures: two asset accounts and one posted entry moving 250 from
account A (id 1, debit) to account B (id 2, credit) on 2025-01-15.
-/

def demoDate : Date := ⟨2025, 1, 15⟩

def accountA : Account := ⟨1, "100", "Caja", "asset", "ES", false, false⟩

def accountB : Account := ⟨2, "572", "Banco", "asset", "ES", false, false⟩

def demoStore : Store := ⟨[accountA, accountB], [], [], 3, 1, 1⟩

def demoPostResult : Except PostEntryError (Store × JournalEntry) :=
  create_journal_entry demoStore (some demoDate) "Compra" 1 (some 250) 2 (some 250) demoDate "user"

def demoPosted : Store := (demoPostResult.toOption.map Prod.fst).getD demoStore

def demoEntry : JournalEntry := (demoPostResult.toOption.map Prod.snd).getD ⟨0, demoDate, "", ""⟩

/-- On equal positive amounts the posting handler always commits, and this is
the exact store it writes: one fresh entry (its description defaulted when the
stripped description is blank, its date defaulted to `today` when the date
input did not parse) and its debit and credit lines. -/
theorem postEntry_ok_eq (s : Store) (dateOpt : Option Date) (descr : String)
    (dAid cAid : Nat) (a : ℚ) (today : Date) (u : String) (hpos : 0 < a) :
    create_journal_entry s dateOpt descr dAid (some a) cAid (some a) today u =
      .ok ({ s with
              entries := s.entries ++ [⟨s.nextEntryId, dateOpt.getD today,
                if pyStrip descr = "" then "Asiento manual" else pyStrip descr, u⟩],
              lines := s.lines ++ [⟨s.nextLineId, s.nextEntryId, dAid, a, 0⟩,
                ⟨s.nextLineId + 1, s.nextEntryId, cAid, 0, a⟩],
              nextEntryId := s.nextEntryId + 1, nextLineId := s.nextLineId + 2 },
            ⟨s.nextEntryId, dateOpt.getD today,
              if pyStrip descr = "" then "Asiento manual" else pyStrip descr, u⟩) := by
  have hcond : ¬(a ≤ 0 ∨ a ≤ 0 ∨ a ≠ a) := by push_neg; exact ⟨hpos, hpos, rfl⟩
  simp only [create_journal_entry]
  rw [if_neg hcond]

/-!
Claim C1 — blank description.
-/

/-- C1 counterexample: posting with a whitespace-only description does not fail:
the handler substitutes the default "Asiento manual" and persists the entry
with its two lines. -/
theorem blankDescriptionDefaulted_cex :
    (create_journal_entry demoStore (some demoDate) "   " 1 (some 250) 2 (some 250) demoDate
        "user").toOption.map (fun p => (p.2.description, p.1.entries.length, p.1.lines.length))
      = some ("Asiento manual", 1, 2) := by decide

/-- C1 (amended): a postEntry call whose description strips to blank does not
fail with a validation error; the description is silently replaced by the
default "Asiento manual" and the entry and its two lines are persisted
(provided the amounts parse, are positive and equal). -/
theorem blankDescriptionDefaulted (s : Store) (dateOpt : Option Date) (descr : String)
    (dAid cAid : Nat) (a : ℚ) (today : Date) (u : String)
    (hblank : pyStrip descr = "") (hpos : 0 < a) :
    ∃ s' e, create_journal_entry s dateOpt descr dAid (some a) cAid (some a) today u = .ok (s', e)
      ∧ e.description = "Asiento manual"
      ∧ s'.entries = s.entries ++ [e]
      ∧ s'.lines.length = s.lines.length + 2 := by
  refine ⟨_, _, postEntry_ok_eq s dateOpt descr dAid cAid a today u hpos, ?_, rfl, by simp⟩
  simp [hblank]

/-- C1 witness: the amended claim at the demo store with description `"   "`. -/
theorem blankDescriptionDefaulted_witness :
    ∃ s' e, create_journal_entry demoStore (some demoDate) "   " 1 (some 250) 2 (some 250)
        demoDate "user" = .ok (s', e)
      ∧ e.description = "Asiento manual"
      ∧ s'.entries = demoStore.entries ++ [e]
      ∧ s'.lines.length = demoStore.lines.length + 2 :=
  blankDescriptionDefaulted demoStore (some demoDate) "   " 1 2 250 demoDate "user"
    (by decide) (by decide)

/-!
Claim C2 — missing account-existence check.
-/

/-- C2 counterexample: posting against a store with no accounts at all
succeeds, persisting two lines that reference the nonexistent accounts 7
and 8; no UnknownAccount failure occurs. -/
theorem noUnknownAccountCheck_cex :
    Store.empty.accounts = []
    ∧ (create_journal_entry Store.empty (some demoDate) "Gasto" 7 (some 50) 8 (some 50) demoDate
          "user").toOption.map (fun p => p.1.lines.map (fun l => l.account_id))
        = some [7, 8] := by decide

/-- C2 (amended): the posting handler performs no account-existence check: even
when neither referenced account id exists in the store, the call succeeds
whenever the amounts parse, are positive and equal, and it persists lines
referencing the missing accounts.  Amount validation is therefore reached
without any prior UnknownAccount check. -/
theorem noUnknownAccountCheck (s : Store) (dateOpt : Option Date) (descr : String)
    (dAid cAid : Nat) (a : ℚ) (today : Date) (u : String)
    (hdA : findAccount s dAid = none) (hcA : findAccount s cAid = none) (hpos : 0 < a) :
    ∃ s' e, create_journal_entry s dateOpt descr dAid (some a) cAid (some a) today u = .ok (s', e)
      ∧ s'.lines.map (fun l => l.account_id) = s.lines.map (fun l => l.account_id) ++ [dAid, cAid] := by
  refine ⟨_, _, postEntry_ok_eq s dateOpt descr dAid cAid a today u hpos, by simp⟩

/-- C2 witness: the amended claim at the empty store and accounts 7 and 8. -/
theorem noUnknownAccountCheck_witness :
    ∃ s' e, create_journal_entry Store.empty (some demoDate) "Gasto" 7 (some 50) 8 (some 50)
        demoDate "user" = .ok (s', e)
      ∧ s'.lines.map (fun l => l.account_id)
          = Store.empty.lines.map (fun l => l.account_id) ++ [7, 8] :=
  noUnknownAccountCheck Store.empty (some demoDate) "Gasto" 7 8 50 demoDate "user"
    (by decide) (by decide) (by decide)

/-!
Claim C3 — unparseable date.
-/

/-- C3 counterexample: posting with an unparseable date input does not fail:
the date silently becomes `today` (here 2025-06-01) and the entry persists. -/
theorem unparseableDateDefaulted_cex :
    (create_journal_entry demoStore none "Compra" 1 (some 50) 2 (some 50) ⟨2025, 6, 1⟩
        "user").toOption.map (fun p => (p.2.date, p.1.entries.length))
      = some (⟨2025, 6, 1⟩, 1) := by decide

/-- C3 (amended): a postEntry call whose date input does not parse is not
rejected: the handler silently substitutes today's date and persists the entry
(provided the amounts parse, are positive and equal), exactly the divergence
§9 of the specification records. -/
theorem unparseableDateDefaulted (s : Store) (descr : String)
    (dAid cAid : Nat) (a : ℚ) (today : Date) (u : String) (hpos : 0 < a) :
    ∃ s' e, create_journal_entry s none descr dAid (some a) cAid (some a) today u = .ok (s', e)
      ∧ e.date = today ∧ s'.entries = s.entries ++ [e] := by
  refine ⟨_, _, postEntry_ok_eq s none descr dAid cAid a today u hpos, rfl, rfl⟩

/-- C3 witness: the amended claim at the demo store with `today = 2025-06-01`. -/
theorem unparseableDateDefaulted_witness :
    ∃ s' e, create_journal_entry demoStore none "Compra" 1 (some 50) 2 (some 50) ⟨2025, 6, 1⟩
        "user" = .ok (s', e)
      ∧ e.date = ⟨2025, 6, 1⟩ ∧ s'.entries = demoStore.entries ++ [e] :=
  unparseableDateDefaulted demoStore "Compra" 1 2 50 ⟨2025, 6, 1⟩ "user" (by decide)

/-!
Claim C4 — createAccount validation.
-/

/-- C4 counterexample: createAccount accepts a type outside
{asset, liability, equity, income, expense}: with a fresh code and a nonblank
name, the account is created carrying the invalid type "bogus". -/
theorem noTypeValidation_cex :
    (create_account Store.empty "999" "Varios" "bogus" "ES" false false).toOption.map
        (fun s' => s'.accounts.map (fun acc => (acc.code, acc.type)))
      = some [("999", "bogus")] := by decide

/-- C4 (amended): createAccount fails on a blank (after stripping) code or
name, and on a duplicate code; the type is not validated at all — when code
and name are nonblank and the code is fresh, the account is created whatever
the type string is. -/
theorem createAccount_checks (s : Store) (code name ty scheme : String) (ic ie : Bool) :
    (create_account s code name ty scheme ic ie = .error .blankCodeOrName
      ↔ (pyStrip code = "" ∨ pyStrip name = ""))
    ∧ (create_account s code name ty scheme ic ie = .error .duplicateCode
      ↔ (¬(pyStrip code = "" ∨ pyStrip name = "")
          ∧ ∃ acc ∈ s.accounts, acc.code = pyStrip code))
    ∧ ((¬(pyStrip code = "" ∨ pyStrip name = "")) →
        (∀ acc ∈ s.accounts, acc.code ≠ pyStrip code) →
        ∃ s', create_account s code name ty scheme ic ie = .ok s'
          ∧ s'.accounts = s.accounts
              ++ [⟨s.nextAccountId, pyStrip code, pyStrip name, ty, scheme, ic, ie⟩]) := by
  have hfind : (s.accounts.find? (fun a => a.code == pyStrip code)).isSome = true
      ↔ ∃ acc ∈ s.accounts, acc.code = pyStrip code := by
    simp [List.find?_isSome]
  by_cases hb : pyStrip code = "" ∨ pyStrip name = ""
  · refine ⟨⟨fun _ => hb, fun _ => ?_⟩, ⟨fun h => ?_, fun ⟨hnb, _⟩ => absurd hb hnb⟩,
      fun hnb _ => absurd hb hnb⟩
    · simp only [create_account]
      rw [if_pos hb]
    · simp only [create_account] at h
      rw [if_pos hb] at h
      exact absurd (Except.error.inj h) (by simp)
  · by_cases hd : ∃ acc ∈ s.accounts, acc.code = pyStrip code
    · refine ⟨⟨fun h => ?_, fun h => absurd h hb⟩, ⟨fun _ => ⟨hb, hd⟩, fun _ => ?_⟩,
        fun _ hfresh => ?_⟩
      · simp only [create_account] at h
        rw [if_neg hb, if_pos (hfind.mpr hd)] at h
        exact absurd (Except.error.inj h) (by simp)
      · simp only [create_account]
        rw [if_neg hb, if_pos (hfind.mpr hd)]
      · obtain ⟨acc, hacc, hcode⟩ := hd
        exact absurd hcode (hfresh acc hacc)
    · have hnot : ¬(s.accounts.find? (fun a => a.code == pyStrip code)).isSome = true :=
        fun hc => hd (hfind.mp hc)
      refine ⟨⟨fun h => ?_, fun h => absurd h hb⟩,
        ⟨fun h => ?_, fun ⟨_, hdup⟩ => absurd hdup hd⟩, fun _ _ => ?_⟩
      · simp only [create_account] at h
        rw [if_neg hb, if_neg hnot] at h
        exact absurd h (by simp)
      · simp only [create_account] at h
        rw [if_neg hb, if_neg hnot] at h
        exact absurd h (by simp)
      · refine ⟨{ s with
            accounts := s.accounts
              ++ [⟨s.nextAccountId, pyStrip code, pyStrip name, ty, scheme, ic, ie⟩],
            nextAccountId := s.nextAccountId + 1 }, ?_, rfl⟩
        simp only [create_account]
        rw [if_neg hb, if_neg hnot]

/-!
Claim C9 — deleteAccount.
-/

/-- C9: deleteAccount fails NotFound when the id is absent; for an existing
account it fails AccountInUse exactly when some journal line references the
account, and otherwise removes the account, leaving entries and lines
untouched.  Failure paths return before any commit, so the store is unchanged
on failure by construction. -/
theorem deleteAccount_correct (s : Store) (aid : Nat) :
    (findAccount s aid = none → delete_account s aid = .error .notFound)
    ∧ (∀ acc, findAccount s aid = some acc →
        ((delete_account s aid = .error .accountInUse ↔ ∃ l ∈ s.lines, l.account_id = aid)
         ∧ ((∀ l ∈ s.lines, l.account_id ≠ aid) →
             ∃ s', delete_account s aid = .ok s'
               ∧ s'.accounts = s.accounts.filter (fun a => a.id != aid)
               ∧ s'.lines = s.lines ∧ s'.entries = s.entries))) := by
  constructor
  · intro h
    unfold delete_account
    rw [h]
  · intro acc hacc
    have hid : acc.id = aid := by
      have hacc' : s.accounts.find? (fun a => a.id == aid) = some acc := by
        simpa [findAccount] using hacc
      have := List.find?_some hacc'
      simpa using this
    have hiff : (s.lines.find? (fun l => l.account_id == acc.id)).isSome = true
        ↔ ∃ l ∈ s.lines, l.account_id = aid := by
      simp [List.find?_isSome, hid]
    by_cases huse : ∃ l ∈ s.lines, l.account_id = aid
    · constructor
      · refine ⟨fun _ => huse, fun _ => ?_⟩
        simp only [delete_account, hacc]
        rw [if_pos (hiff.mpr huse)]
      · intro hnone
        obtain ⟨l, hl, he⟩ := huse
        exact absurd he (hnone l hl)
    · have hnot : ¬(s.lines.find? (fun l => l.account_id == acc.id)).isSome = true :=
        fun hc => huse (hiff.mp hc)
      constructor
      · constructor
        · intro h
          simp only [delete_account, hacc] at h
          rw [if_neg hnot] at h
          exact absurd h (by simp)
        · intro h
          exact absurd h huse
      · intro _
        refine ⟨{ s with accounts := s.accounts.filter (fun a => a.id != acc.id) }, ?_, ?_,
          rfl, rfl⟩
        · simp only [delete_account, hacc]
          rw [if_neg hnot]
        · show s.accounts.filter (fun a => a.id != acc.id) = _
          rw [hid]

/-!
Claim C10 — shape of every successfully posted entry.
-/

/-- C10: every entry the posting handler commits consists of exactly two lines
carrying the same strictly positive amount: a debit line (credit 0) on the
debit account and a credit line (debit 0) on the credit account; hence the
entry is balanced and no line of it carries nonzero debit and nonzero credit
at once.  `hfresh` is the store invariant that no existing line references the
id the new entry receives from the autoincrement counter. -/
theorem postedEntry_twoLines (s : Store) (dateOpt : Option Date) (descr : String)
    (dAid : Nat) (debitOpt : Option ℚ) (cAid : Nat) (creditOpt : Option ℚ)
    (today : Date) (u : String) (s' : Store) (e : JournalEntry)
    (hfresh : ∀ l ∈ s.lines, l.entry_id ≠ s.nextEntryId)
    (h : create_journal_entry s dateOpt descr dAid debitOpt cAid creditOpt today u = .ok (s', e)) :
    ∃ a : ℚ, 0 < a
      ∧ s'.lines.filter (fun l => l.entry_id == e.id)
          = [⟨s.nextLineId, e.id, dAid, a, 0⟩, ⟨s.nextLineId + 1, e.id, cAid, 0, a⟩]
      ∧ ((s'.lines.filter (fun l => l.entry_id == e.id)).map (fun l => l.debit)).sum
          = ((s'.lines.filter (fun l => l.entry_id == e.id)).map (fun l => l.credit)).sum
      ∧ (∀ l ∈ s'.lines.filter (fun l => l.entry_id == e.id), l.debit = 0 ∨ l.credit = 0) := by
  cases debitOpt with
  | none => simp [create_journal_entry] at h
  | some a =>
    cases creditOpt with
    | none => simp [create_journal_entry] at h
    | some b =>
      simp only [create_journal_entry] at h
      by_cases hc : a ≤ 0 ∨ b ≤ 0 ∨ a ≠ b
      · rw [if_pos hc] at h
        exact absurd h (by simp)
      · rw [if_neg hc] at h
        push_neg at hc
        obtain ⟨ha, hb, hab⟩ := hc
        injection h with hpair
        injection hpair with hs' he
        subst hs'
        subst he
        refine ⟨a, ha, ?_, ?_, ?_⟩
        · rw [List.filter_append]
          rw [List.filter_eq_nil_iff.mpr (fun l hl => by simp [hfresh l hl])]
          simp [hab]
        · rw [List.filter_append]
          rw [List.filter_eq_nil_iff.mpr (fun l hl => by simp [hfresh l hl])]
          simp [hab]
        · rw [List.filter_append]
          rw [List.filter_eq_nil_iff.mpr (fun l hl => by simp [hfresh l hl])]
          simp

/-- The demo posting, written out: the handler commits and `demoPosted` /
`demoEntry` are its components. -/
theorem demoPostResult_eq : demoPostResult = .ok (demoPosted, demoEntry) := by
  have h := postEntry_ok_eq demoStore (some demoDate) "Compra" 1 2 250 demoDate "user" (by decide)
  simp only [demoPosted, demoEntry, demoPostResult, h, Except.toOption, Option.map_some',
    Option.getD_some]

/-- C10 witness: the two-line shape at the concrete demo posting. -/
theorem postedEntry_twoLines_witness :
    ∃ a : ℚ, 0 < a
      ∧ demoPosted.lines.filter (fun l => l.entry_id == demoEntry.id)
          = [⟨1, demoEntry.id, 1, a, 0⟩, ⟨2, demoEntry.id, 2, 0, a⟩]
      ∧ ((demoPosted.lines.filter (fun l => l.entry_id == demoEntry.id)).map
            (fun l => l.debit)).sum
          = ((demoPosted.lines.filter (fun l => l.entry_id == demoEntry.id)).map
            (fun l => l.credit)).sum
      ∧ (∀ l ∈ demoPosted.lines.filter (fun l => l.entry_id == demoEntry.id),
          l.debit = 0 ∨ l.credit = 0) :=
  postedEntry_twoLines demoStore (some demoDate) "Compra" 1 (some 250) 2 (some 250) demoDate
    "user" demoPosted demoEntry (by decide) demoPostResult_eq

/-!
Claim C5 — ledger for an account.
-/

/-- The demo posting written as an explicit store. -/
theorem demoPosted_eq :
    demoPosted = ⟨[accountA, accountB], [⟨1, demoDate, "Compra", "user"⟩],
      [⟨1, 1, 1, 250, 0⟩, ⟨2, 1, 2, 0, 250⟩], 3, 2, 3⟩ := by decide

/-- C5: for every store whose lines all resolve to an entry, the ledger of an
account consists of exactly that account's lines (as a permutation), sorted by
(entry date, entry id) ascending; the rows carry the lines' dates,
descriptions and amounts; the running balance starts at debit - credit and
each later row adds debit - credit of its line, with the same formula for
every account type.  In particular the demo entry crediting 250 to account B
yields the single row with balance -250 (and the debit side the single row
with balance 250). -/
theorem ledgerForAccount_correct :
    (∀ (s : Store) (aid : Nat),
      (∀ l ∈ s.lines, l.account_id = aid → (findEntry s l.entry_id).isSome) →
      (((sortedAccountLines s aid).map Prod.fst).Perm
          (s.lines.filter (fun l => l.account_id == aid))
        ∧ List.Sorted entryKeyLe (sortedAccountLines s aid)
        ∧ (∀ p ∈ sortedAccountLines s aid,
            p.1.account_id = aid ∧ findEntry s p.1.entry_id = some p.2)
        ∧ (ledger_lines s aid).map (fun r => (r.date, r.description, r.debit, r.credit))
            = (sortedAccountLines s aid).map
                (fun p => (p.2.date, p.2.description, p.1.debit, p.1.credit))
        ∧ (∀ h0 : 0 < (ledger_lines s aid).length,
            (ledger_lines s aid)[0].balance
              = (ledger_lines s aid)[0].debit - (ledger_lines s aid)[0].credit)
        ∧ (∀ i : Nat, ∀ hi : i + 1 < (ledger_lines s aid).length,
            (ledger_lines s aid)[i + 1].balance
              = (ledger_lines s aid)[i].balance
                + ((ledger_lines s aid)[i + 1].debit - (ledger_lines s aid)[i + 1].credit))))
    ∧ ledger_lines demoPosted 2 = [⟨demoDate, "Compra", 0, 250, -250⟩]
    ∧ ledger_lines demoPosted 1 = [⟨demoDate, "Compra", 250, 0, 250⟩] := by
  refine ⟨fun s aid hint => ⟨?_, ?_, ?_, ?_, ?_, ?_⟩, ?_, ?_⟩
  · have h1 := (List.perm_insertionSort entryKeyLe (accountJoinedLines s aid)).map Prod.fst
    rw [accountJoinedLines_fst s aid hint] at h1
    exact h1
  · exact List.sorted_insertionSort entryKeyLe (accountJoinedLines s aid)
  · intro p hp
    have hmem : p ∈ accountJoinedLines s aid :=
      (List.perm_insertionSort entryKeyLe (accountJoinedLines s aid)).subset hp
    obtain ⟨-, h2, h3⟩ := mem_accountJoinedLines hmem
    exact ⟨h2, h3⟩
  · exact ledgerRows_fields (sortedAccountLines s aid) 0
  · intro h0
    have := ledgerRows_balance_head (sortedAccountLines s aid) 0
      (by simpa [ledger_lines] using h0)
    simpa [ledger_lines] using this
  · intro i hi
    have := ledgerRows_balance_step (sortedAccountLines s aid) 0 i
      (by simpa [ledger_lines] using hi)
    simpa [ledger_lines] using this
  · rw [demoPosted_eq]
    norm_num +decide [ledger_lines, sortedAccountLines, accountJoinedLines, findEntry,
      ledgerRows, List.insertionSort, List.orderedInsert, List.find?, List.filterMap,
      demoDate, accountA, accountB]
  · rw [demoPosted_eq]
    norm_num +decide [ledger_lines, sortedAccountLines, accountJoinedLines, findEntry,
      ledgerRows, List.insertionSort, List.orderedInsert, List.find?, List.filterMap,
      demoDate, accountA, accountB]

/-- C5 witness: the general part instantiated at the demo store and account B,
its referential-integrity hypothesis discharged concretely. -/
theorem ledgerForAccount_correct_witness :
    List.Sorted entryKeyLe (sortedAccountLines demoPosted 2) :=
  (ledgerForAccount_correct.1 demoPosted 2 (by decide)).2.1

/-!
Claim C6 — trial balance rows.
-/

theorem totals_zero_of_no_lines (s : Store) (acc : Account)
    (h : s.lines.filter (fun l => l.account_id == acc.id) = []) :
    accountDebitTotal s acc = 0 ∧ accountCreditTotal s acc = 0 := by
  unfold accountDebitTotal accountCreditTotal
  rw [h]
  simp

def zeroLineStore : Store :=
  ⟨[accountA], [⟨1, demoDate, "vacio", "user"⟩], [⟨1, 1, 1, 0, 0⟩], 2, 2, 2⟩

/-- C6 counterexample: account 1 carries one journal line (with zero debit and
zero credit, which the data model admits), yet balance_rows has no row for it:
the code keeps a row only when a total is nonzero, not whenever the account
has at least one line. -/
theorem trialBalance_missingRow_cex :
    (zeroLineStore.lines.filter (fun l => l.account_id == accountA.id)).length = 1
    ∧ accountA ∈ zeroLineStore.accounts
    ∧ balance_rows zeroLineStore = [] := by
  refine ⟨by decide, by decide, ?_⟩
  norm_num +decide [balance_rows, accountsByCode, accountCodeLe, List.insertionSort,
    List.orderedInsert, accountDebitTotal, accountCreditTotal, zeroLineStore, accountA,
    List.filter]

/-- C6 (amended): balance_rows has a row exactly for each account whose debit
total or credit total over its lines is nonzero; each row carries the sums of
the account's line debits and credits and their difference.  Such an account
necessarily has at least one line, but an account whose lines all total to
zero debit and zero credit gets no row. -/
theorem trialBalance_rows (s : Store) :
    (∀ r ∈ balance_rows s,
        r.account ∈ s.accounts
        ∧ r.debit_total = accountDebitTotal s r.account
        ∧ r.credit_total = accountCreditTotal s r.account
        ∧ r.saldo = r.debit_total - r.credit_total
        ∧ (r.debit_total ≠ 0 ∨ r.credit_total ≠ 0)
        ∧ s.lines.filter (fun l => l.account_id == r.account.id) ≠ [])
    ∧ (∀ acc ∈ s.accounts,
        (accountDebitTotal s acc ≠ 0 ∨ accountCreditTotal s acc ≠ 0) →
        ∃ r ∈ balance_rows s, r.account = acc
          ∧ r.debit_total = accountDebitTotal s acc
          ∧ r.credit_total = accountCreditTotal s acc
          ∧ r.saldo = accountDebitTotal s acc - accountCreditTotal s acc) := by
  constructor
  · intro r hr
    obtain ⟨acc, hacc, hf⟩ := List.mem_filterMap.mp hr
    by_cases hnz : accountDebitTotal s acc ≠ 0 ∨ accountCreditTotal s acc ≠ 0
    · rw [if_pos hnz] at hf
      obtain rfl := Option.some.inj hf
      refine ⟨?_, rfl, rfl, rfl, hnz, ?_⟩
      · exact (List.perm_insertionSort accountCodeLe s.accounts).subset hacc
      · intro hnil
        obtain ⟨h1, h2⟩ := totals_zero_of_no_lines s acc hnil
        rcases hnz with h | h
        · exact h h1
        · exact h h2
    · rw [if_neg hnz] at hf
      exact absurd hf (by simp)
  · intro acc hacc hnz
    have hmem : acc ∈ accountsByCode s :=
      ((List.perm_insertionSort accountCodeLe s.accounts).symm.subset) hacc
    refine ⟨⟨acc, accountDebitTotal s acc, accountCreditTotal s acc,
      accountDebitTotal s acc - accountCreditTotal s acc⟩, ?_, rfl, rfl, rfl, rfl⟩
    exact List.mem_filterMap.mpr ⟨acc, hmem, by rw [if_pos hnz]⟩

/-- C6 witness: the row-existence direction at the demo store and account B,
whose credit total 250 is nonzero. -/
theorem trialBalance_rows_witness :
    ∃ r ∈ balance_rows demoPosted, r.account = accountB
      ∧ r.debit_total = accountDebitTotal demoPosted accountB
      ∧ r.credit_total = accountCreditTotal demoPosted accountB
      ∧ r.saldo = accountDebitTotal demoPosted accountB
          - accountCreditTotal demoPosted accountB :=
  (trialBalance_rows demoPosted).2 accountB (by rw [demoPosted_eq]; decide)
    (by rw [demoPosted_eq]
        norm_num +decide [accountDebitTotal, accountCreditTotal, accountB, List.filter_cons,
          List.filter_nil])

/-!
Claim C7 — equityTotal and the is_equity flag.
-/

/-- Modelled from the claim's (and spec §4.3's) words, for comparison with the
implementation: Σ(credit - debit) over the lines of every account whose type
is "equity" or whose is_equity flag is set. -/
def equityTotalClaimed (s : Store) : ℚ :=
  ((resolvedLines s).map (fun r =>
    if r.2.1.type = "equity" ∨ r.2.1.is_equity then r.1.credit - r.1.debit else 0)).sum

def equityFlagAsset : Account := ⟨1, "118", "Aportaciones", "asset", "ES", false, true⟩

def equityFlagStore : Store :=
  ⟨[equityFlagAsset], [⟨1, demoDate, "apunte", "user"⟩], [⟨1, 1, 1, 0, 100⟩], 2, 2, 2⟩

/-- C7 counterexample: an asset-typed account carrying the is_equity flag,
credited 100.  The claimed formula counts it in equity (100), but the
implementation's elif chain sends the line to the asset branch:
equity_total stays 0 and assets_total takes the -100. -/
theorem equityMisattribution_cex :
    (financials equityFlagStore).equity_total = 0
    ∧ equityTotalClaimed equityFlagStore = 100
    ∧ (financials equityFlagStore).assets_total = -100 := by
  norm_num +decide [financials, resolvedLines, findAccount, findEntry, financialsStep,
    initFinancials, equityTotalClaimed, equityFlagStore, equityFlagAsset, List.find?,
    List.filterMap, List.foldl]

/-- C7 (amended): equity_total is Σ(credit - debit) over exactly the lines
whose account reaches the equity branch of the elif chain: accounts of type
"equity", or with the is_equity flag and a type that is neither "asset" nor
"liability".  An asset- or liability-typed account never contributes to
equity_total, whatever its is_equity flag says. -/
theorem equityTotal_eq_sum (s : Store) :
    (financials s).equity_total = ((resolvedLines s).map equityContrib).sum := by
  unfold financials
  rw [foldl_equity]
  simp [initFinancials]

/-!
Claim C8 — burn rate and runway.
-/

def cashAcc : Account := ⟨1, "570", "Caja", "asset", "ES", true, false⟩

def expenseAcc : Account := ⟨2, "600", "Gastos", "expense", "ES", false, false⟩

def burnEntry (i : Nat) (m : Int) : JournalEntry := ⟨i, ⟨2025, m, 10⟩, "gasto", "user"⟩

/-- Expense months Jan=1000, Feb=1500, Mar=2000 and a cash balance of 4500. -/
def burnDemoStore : Store :=
  ⟨[cashAcc, expenseAcc],
   [burnEntry 1 1, burnEntry 2 2, burnEntry 3 3, burnEntry 4 1],
   [⟨1, 1, 2, 1000, 0⟩, ⟨2, 2, 2, 1500, 0⟩, ⟨3, 3, 2, 2000, 0⟩, ⟨4, 4, 1, 4500, 0⟩],
   3, 5, 5⟩

/-- C8: burn rate and runway.  The populated months are exactly the
(year, month) pairs bearing an expense line; each month's figure is the sum of
expense net amounts (debit - credit) of that month; the selection keeps
min 3 n most recent populated months (every unselected populated month
precedes every selected one); the burn rate is their sum over their count and
0 when no expense-bearing month exists; the runway is cash / burn exactly
when the burn rate is positive and absent otherwise, negative cash giving a
negative runway.  The demo months 1000/1500/2000 with cash 4500 give burn
1500 and runway 3. -/
theorem burnRate_runway_correct :
    (∀ s : Store,
      ((financials s).monthly_expenses = [] → burn_rate s = 0 ∧ runway_months s = none)
      ∧ (∀ k : Int × Int, k ∈ (financials s).monthly_expenses.map Prod.fst ↔
          ∃ r ∈ resolvedLines s, r.2.1.type = "expense" ∧ (r.2.2.date.year, r.2.2.date.month) = k)
      ∧ (∀ k, lookupMonth (financials s).monthly_expenses k = monthlyExpenseTotal s k)
      ∧ (lastMonthKeys (financials s)).length = min 3 (financials s).monthly_expenses.length
      ∧ (∀ k ∈ lastMonthKeys (financials s), k ∈ (financials s).monthly_expenses.map Prod.fst)
      ∧ (∀ k ∈ sortedMonthKeys (financials s), k ∉ lastMonthKeys (financials s) →
          ∀ k2 ∈ lastMonthKeys (financials s), monthKeyLe k k2)
      ∧ ((financials s).monthly_expenses ≠ [] →
          burn_rate s = ((lastMonthKeys (financials s)).map
              (lookupMonth (financials s).monthly_expenses)).sum
            / ((lastMonthKeys (financials s)).length : ℚ))
      ∧ (runway_months s =
          if 0 < burn_rate s then some ((financials s).cash_balance / burn_rate s) else none)
      ∧ (0 < burn_rate s → (financials s).cash_balance < 0 →
          ∃ m : ℚ, runway_months s = some m ∧ m < 0))
    ∧ burn_rate burnDemoStore = 1500
    ∧ runway_months burnDemoStore = some 3 := by
  have hsortlen : ∀ s : Store,
      (sortedMonthKeys (financials s)).length = (financials s).monthly_expenses.length := by
    intro s
    simp [sortedMonthKeys, List.length_insertionSort]
  have hlastlen : ∀ s : Store,
      (lastMonthKeys (financials s)).length = min 3 (financials s).monthly_expenses.length := by
    intro s
    simp only [lastMonthKeys, List.length_drop, hsortlen s]
    omega
  have hempty : ∀ s : Store, (financials s).monthly_expenses = [] →
      burn_rate s = 0 ∧ runway_months s = none := by
    intro s h
    constructor
    · simp [burn_rate, h]
    · simp [runway_months, h]
  have hformula : ∀ s : Store, (financials s).monthly_expenses ≠ [] →
      burn_rate s = ((lastMonthKeys (financials s)).map
          (lookupMonth (financials s).monthly_expenses)).sum
        / ((lastMonthKeys (financials s)).length : ℚ) := by
    intro s h
    have hn : 0 < (financials s).monthly_expenses.length := List.length_pos.mpr h
    have hl : 0 < (lastMonthKeys (financials s)).length := by
      rw [hlastlen s]; omega
    simp only [burn_rate]
    rw [if_neg h, if_pos hl]
  have hrunway : ∀ s : Store, runway_months s =
      if 0 < burn_rate s then some ((financials s).cash_balance / burn_rate s) else none := by
    intro s
    by_cases hm : (financials s).monthly_expenses = []
    · have hb := (hempty s hm).1
      simp [runway_months, hm, hb]
    · simp only [runway_months]
      rw [if_neg hm]
  refine ⟨fun s => ⟨hempty s, fun k => mem_keys_financials s k,
    fun k => lookupMonth_financials s k, hlastlen s, ?_, ?_, hformula s, hrunway s, ?_⟩, ?_, ?_⟩
  · intro k hk
    have h1 : k ∈ sortedMonthKeys (financials s) :=
      (List.drop_sublist _ _).subset hk
    exact ((List.perm_insertionSort monthKeyLe _).subset) h1
  · intro k hk hnot k2 hk2
    have hsplit := List.take_append_drop
      ((sortedMonthKeys (financials s)).length - 3) (sortedMonthKeys (financials s))
    have hk' : k ∈ (sortedMonthKeys (financials s)).take
        ((sortedMonthKeys (financials s)).length - 3) := by
      rcases List.mem_append.mp (by rw [hsplit]; exact hk) with h | h
      · exact h
      · exact absurd h hnot
    exact (List.sorted_insertionSort monthKeyLe _).rel_of_mem_take_of_mem_drop hk' hk2
  · intro hb hc
    refine ⟨(financials s).cash_balance / burn_rate s, ?_, div_neg_of_neg_of_pos hc hb⟩
    rw [hrunway s, if_pos hb]
  · norm_num +decide [burnDemoStore, cashAcc, expenseAcc, burnEntry, burn_rate, financials,
      resolvedLines, findAccount, findEntry, financialsStep, initFinancials, bumpMonth,
      lastMonthKeys, sortedMonthKeys, lookupMonth, monthKeyLe, List.insertionSort,
      List.orderedInsert, List.find?, List.filterMap, List.foldl]
  · norm_num +decide [burnDemoStore, cashAcc, expenseAcc, burnEntry, burn_rate, runway_months,
      financials, resolvedLines, findAccount, findEntry, financialsStep, initFinancials,
      bumpMonth, lastMonthKeys, sortedMonthKeys, lookupMonth, monthKeyLe, List.insertionSort,
      List.orderedInsert, List.find?, List.filterMap, List.foldl]
